import Mathlib

/-!
Shallow embedding of zoom-recording-to-cloud-backup (Python) in Lean 4.

Source files embedded:
  src/zoom-recording-cloud-backup.py  (main per-file processing loop, format_filename,
                                       per_delta, exit behaviour)
  src/utils/zoom.py                   (ZoomClient.list_recordings, per_delta,
                                       RecordingFiles, ZoomRecording)
  src/utils/file_io.py                (update_meeting_json_file)
  src/utils/msgraph_utils.py          (upload_large_file)

Python JSON-decoded values are modelled by the inductive JVal; Python exceptions by
PyErr; fallible Python code returns Except PyErr.
-/

namespace ZoomBackup

/-- Values of Python objects decoded from JSON: None, bool, number, str, list, dict
(a dict is an association list preserving insertion order, as Python dicts do). -/
inductive JVal where
  | null : JVal
  | bool : Bool → JVal
  | num : Int → JVal
  | str : String → JVal
  | arr : List JVal → JVal
  | obj : List (String × JVal) → JVal

/-- Python exception classes that the embedded code can raise. -/
inductive PyErr where
  | attributeError : PyErr
  | typeError : PyErr
  | unboundLocalError : PyErr
  | fileNotFoundError : PyErr
deriving DecidableEq

/-- Python equality between a JSON-decoded value and a str literal: true exactly when
the value is an equal str (no other JSON type compares equal to a str in Python). -/
def JVal.eqStr : JVal → String → Bool
  | .str s, t => s == t
  | _, _ => false

/-- Python dict.get(key, default) on an association-list dict: the value of the first
binding of the key, or the default when the key is absent. -/
def jgetD (fields : List (String × JVal)) (key : String) (dflt : JVal) : JVal :=
  match fields.find? (fun kv => kv.1 == key) with
  | some kv => kv.2
  | none => dflt

/-- Python value.lower(): only str objects have a lower method; calling lower on any
other JSON-decodable value (None, bool, int, list, dict) raises AttributeError. -/
def JVal.lower : JVal → Except PyErr String
  | .str s => .ok (String.mk (s.data.map Char.toLower))
  | _ => .error .attributeError

/-- RecordingFiles objects, src/utils/zoom.py lines 114-121. The file_extension field
holds the lower-cased string produced in the constructor; the remaining fields hold
whatever JSON value the source dict supplied (default None, status default "pending"). -/
structure RecordingFiles where
  download_url : JVal
  file_extension : String
  id : JVal
  status : JVal
  type : JVal

/-- Constructor of RecordingFiles, src/utils/zoom.py lines 116-121. Each field is read
with dict.get and a default; the file_extension value has .lower() called on it
immediately, which raises AttributeError unless the value is a str. -/
def RecordingFiles.init (file_json : List (String × JVal)) : Except PyErr RecordingFiles := do
  let fe ← (jgetD file_json "file_extension" JVal.null).lower
  pure {
    download_url := jgetD file_json "download_url" JVal.null
    file_extension := fe
    id := jgetD file_json "id" JVal.null
    status := jgetD file_json "_status" (JVal.str "pending")
    type := jgetD file_json "recording_type" JVal.null
  }

/-- RecordingFiles.to_json, src/utils/zoom.py lines 123-130. -/
def RecordingFiles.to_json (f : RecordingFiles) : List (String × JVal) :=
  [("download_url", f.download_url), ("file_extension", JVal.str f.file_extension),
   ("id", f.id), ("_status", f.status), ("type", f.type)]

/-! Ledger model, src/utils/file_io.py. The ledger file holds a JSON object mapping
meeting ids to per-file metadata objects; both levels are association lists preserving
Python dict insertion order. -/

/-- One ledger entry: the per-meeting metadata dict. -/
abbrev Entry := List (String × JVal)

/-- The in-memory ledger: meeting id to entry, in insertion order. -/
abbrev Ledger := List (String × Entry)

/-- Python dict assignment d[k] = v: replaces the binding in place when the key is
present, otherwise appends a new binding at the end (insertion order). -/
def dictSet {α : Type} : List (String × α) → String → α → List (String × α)
  | [], k, v => [(k, v)]
  | (k', v') :: rest, k, v =>
    if k' == k then (k, v) :: rest else (k', v') :: dictSet rest k v

/-- Python dict.update(upd): assigns every binding of upd into d, in upd's order. -/
def dictUpdate (d upd : Entry) : Entry :=
  upd.foldl (fun acc kv => dictSet acc kv.1 kv.2) d

/-- Pure merge step of update_meeting_json_file, src/utils/file_io.py lines 29-32:
if the meeting id is a key of the data, merge the fields into the existing entry with
dict.update; otherwise insert the fields as a new entry. -/
def update_meeting_json_file (data : Ledger) (meeting_id : String) (meeting_json : Entry) :
    Ledger :=
  if (data.find? (fun kv => kv.1 == meeting_id)).isSome then
    data.map (fun kv => if kv.1 == meeting_id then (kv.1, dictUpdate kv.2 meeting_json) else kv)
  else
    data ++ [(meeting_id, meeting_json)]

/-- Value of a key in an entry, as Python d[k] or d.get(k) reads it. -/
def entryLookup (e : Entry) (k : String) : Option JVal :=
  (e.find? (fun kv => kv.1 == k)).map (fun kv => kv.2)

/-- Entry stored under a meeting id in the ledger ([] when absent). -/
def getEntry (d : Ledger) (mid : String) : Entry :=
  ((d.find? (fun kv => kv.1 == mid)).map (fun kv => kv.2)).getD []

/-- Value of the LAST binding of a key in a field list; when the same key is assigned
repeatedly by dict.update, the last assignment wins. -/
def lastVal : Entry → String → Option JVal
  | [], _ => none
  | (a, b) :: rest, k =>
    (lastVal rest k).elim (if a == k then some b else none) some

/-! Date-range splitting and recording listing, src/utils/zoom.py lines 45-84.
Datetimes are modelled as nonnegative integers in a fixed time unit; the 30-day
timedelta is the parameter delta in the same unit. -/

/-- Loop body of per_delta, src/utils/zoom.py lines 48-51: while curr is before the
end, yield the window from curr to min (curr + delta) end, then advance curr by delta.
The while loop is embedded with a fuel argument; a fuel of at least the length of the
remaining range is sufficient whenever delta is positive, so perDelta below never
exhausts it (for delta = 0 the Python generator never terminates). -/
def perDeltaGo (endT delta : Nat) : Nat → Nat → List (Nat × Nat)
  | 0, _ => []
  | fuel + 1, curr =>
    if curr < endT then
      (curr, min (curr + delta) endT) :: perDeltaGo endT delta fuel (curr + delta)
    else []

/-- Generator per_delta, src/utils/zoom.py lines 45-51 (same code at
src/zoom-recording-cloud-backup.py lines 240-246), as the list of produced windows. -/
def perDelta (start endT delta : Nat) : List (Nat × Nat) :=
  perDeltaGo endT delta (endT - start) start

/-- Outcome of one attempt of ZoomClient.get_recordings for a window: a JSON response
(some meetings when the "meetings" key is present, none when it is absent), or one of
the two timeout exceptions the retry loop catches. -/
inductive AttemptOutcome where
  | ok : Option (List String) → AttemptOutcome
  | connectTimeout : AttemptOutcome
  | readTimeout : AttemptOutcome
deriving DecidableEq

/-- Retry loop of list_recordings, src/utils/zoom.py lines 62-73: up to the given
number of attempts, return the first successful response; none when every attempt
times out (the for loop's else clause then runs in the source). -/
def fetchWithRetries (attempt : Nat → AttemptOutcome) : Nat → Nat → Option (Option (List String))
  | _, 0 => none
  | k, n + 1 =>
    match attempt k with
    | .ok d => some d
    | .connectTimeout => fetchWithRetries attempt (k + 1) n
    | .readTimeout => fetchWithRetries attempt (k + 1) n

/-- Window loop of ZoomClient.list_recordings, src/utils/zoom.py lines 58-84:
accumulate the meetings of each window; when a window exhausts its retries the
for/else branch at lines 74-76 executes return [], abandoning the accumulated
meetings; a response without a "meetings" key is logged and skipped. -/
def listRecordingsGo (attempts : Nat × Nat → Nat → AttemptOutcome) :
    List (Nat × Nat) → List String → List String
  | [], acc => acc
  | w :: ws, acc =>
    match fetchWithRetries (attempts w) 0 3 with
    | none => []
    | some (some ms) => listRecordingsGo attempts ws (acc ++ ms)
    | some none => listRecordingsGo attempts ws acc

/-- ZoomClient.list_recordings, src/utils/zoom.py lines 53-84: split the date range
into 30-day windows with per_delta and run the window loop. The attempts function
gives the outcome of each numbered attempt of each window's get_recordings call. -/
def list_recordings (start endT : Nat) (attempts : Nat × Nat → Nat → AttemptOutcome) :
    List String :=
  listRecordingsGo attempts (perDelta start endT 30) []

/-- Meetings a single window contributes when its fetch succeeds (spec-side helper for
the amended C3 statement: the recordings gathered from one reachable window). -/
def windowMeetings (attempts : Nat × Nat → Nat → AttemptOutcome) (w : Nat × Nat) :
    List String :=
  match fetchWithRetries (attempts w) 0 3 with
  | some (some ms) => ms
  | _ => []

/-- Concatenation of the meetings gathered from all reachable windows (spec-side
helper for the amended C3 statement). -/
def gatheredMeetings (attempts : Nat × Nat → Nat → AttemptOutcome)
    (ws : List (Nat × Nat)) : List String :=
  (ws.map (windowMeetings attempts)).flatten

/-! Upload, src/utils/msgraph_utils.py lines 83-138, and the per-file processing step
of main, src/zoom-recording-cloud-backup.py lines 459-528. -/

/-- Outcome of one remote Graph API operation: success, or an APIError carrying the
remote response status code. -/
inductive APIOutcome where
  | ok : APIOutcome
  | apiError : Nat → APIOutcome
deriving DecidableEq

/-- The function upload_large_file, src/utils/msgraph_utils.py lines 83-138, by its
observable outcome at the caller. fileOpens is whether open(local_file_path) succeeds;
sessionResult is the outcome of the create_upload_session call; chunkResult is the
outcome of task.upload (the chunked transfer). The source catches an APIError from
session creation at lines 96-97 and only prints it, after which line 109 reads
upload_session.upload_url from the unassigned local variable, raising
UnboundLocalError (not an APIError, so it escapes the outer handler); the source
catches an APIError from task.upload at lines 134-136 and only prints the message and
response status code, so the function then returns normally. -/
def upload_large_file (fileOpens : Bool) (sessionResult chunkResult : APIOutcome) :
    Except PyErr Unit :=
  if fileOpens then
    match sessionResult with
    | .apiError _ => .error .unboundLocalError
    | .ok =>
      match chunkResult with
      | .ok => .ok ()
      | .apiError _ => .ok ()
  else .error .fileNotFoundError

/-- Per-run mutable state of main touched by the per-file loop: the statistics
counters of src/zoom-recording-cloud-backup.py lines 411-413, the ledger contents,
and whether the staged local file for the current recording file exists on disk. -/
structure RunState where
  failed_files : Nat
  completed_recordings : Nat
  total_recording_size : Int
  ledger : Ledger
  localFileExists : Bool

/-- Outcome of the download_recording call at line 486 of
src/zoom-recording-cloud-backup.py: the function returned True, returned False (it
caught an exception while writing chunks, lines 274-280 of the source), or an
exception escaped it (for example from requests.get or os.makedirs, which run before
its internal try block). -/
inductive DownloadOutcome where
  | succeeded : DownloadOutcome
  | returnedFalse : DownloadOutcome
  | raised : DownloadOutcome
deriving DecidableEq

/-- Per-file processing step of main, src/zoom-recording-cloud-backup.py lines
459-528, for one recording file. Returns the updated run state, the updated file, and
the lines printed. Lines 475-499: when the status is "pending", a dry run only prints
the download that would happen; otherwise download_recording runs and on True the
status becomes "downloaded" and the ledger is merge-updated, on a raised exception the
status becomes "download failed", the ledger is merge-updated, the failure counter is
incremented and the loop continues to the next file, and on False nothing is changed.
Lines 502-526: when the (possibly just updated) status is "downloaded", the try suite
either prints the remote path (dry run) or runs upload_large_file; the statement at
lines 507-526 is a try/except/ELSE, so the else suite runs whenever the try suite
raises nothing - in particular also after the dry-run print: the status becomes
"uploaded", the success counter and byte total grow, the ledger is merge-updated and
the local file is removed. A raised exception instead makes the status
"upload failed", increments the failure counter and merge-updates the ledger. -/
def processFile (dry_run : Bool) (dl : DownloadOutcome) (fileOpens : Bool)
    (sessionResult chunkResult : APIOutcome) (recordingId : String)
    (recordingSize : Int) (st : RunState) (file : RecordingFiles) :
    RunState × RecordingFiles × List String :=
  let pendingStep : RunState × RecordingFiles × List String × Bool :=
    if file.status.eqStr "pending" then
      if dry_run then
        (st, file, ["download url, user, filename and folder printed"], false)
      else
        match dl with
        | .succeeded =>
          let f1 : RecordingFiles := { file with status := JVal.str "downloaded" }
          ({ st with
              ledger := update_meeting_json_file st.ledger recordingId f1.to_json
              localFileExists := true }, f1, [], false)
        | .returnedFalse => (st, file, [], false)
        | .raised =>
          let f1 : RecordingFiles := { file with status := JVal.str "download failed" }
          ({ st with
              ledger := update_meeting_json_file st.ledger recordingId f1.to_json
              failed_files := st.failed_files + 1 }, f1,
           ["failed to process file"], true)
    else (st, file, [], false)
  match pendingStep with
  | (st1, f1, log1, true) => (st1, f1, log1)
  | (st1, f1, log1, false) =>
    if f1.status.eqStr "downloaded" then
      let trySuite : Except PyErr Unit :=
        if dry_run then .ok () else upload_large_file fileOpens sessionResult chunkResult
      match trySuite with
      | .error _ =>
        let f2 : RecordingFiles := { f1 with status := JVal.str "upload failed" }
        ({ st1 with
            failed_files := st1.failed_files + 1
            ledger := update_meeting_json_file st1.ledger recordingId f2.to_json },
         f2, log1 ++ ["failed to upload file"])
      | .ok _ =>
        let f2 : RecordingFiles := { f1 with status := JVal.str "uploaded" }
        ({ st1 with
            completed_recordings := st1.completed_recordings + 1
            total_recording_size := st1.total_recording_size + recordingSize
            ledger := update_meeting_json_file st1.ledger recordingId f2.to_json
            localFileExists := false },
         f2, log1 ++ ["finished processing file"])
    else (st1, f1, log1 ++ ["finished processing file"])

/-! ZoomRecording construction, src/utils/zoom.py lines 133-149, the no-recordings
fallback of main, src/zoom-recording-cloud-backup.py lines 421-446, and the process
exit behaviour at line 544. -/

/-- Python value.get(key, default): only dict objects have a get method; calling get
on any other JSON-decodable value (in particular on a str) raises AttributeError. -/
def JVal.pyGet (v : JVal) (key : String) (dflt : JVal) : Except PyErr JVal :=
  match v with
  | .obj fields => .ok (jgetD fields key dflt)
  | _ => .error .attributeError

/-- ZoomRecording objects, src/utils/zoom.py lines 133-145. -/
structure ZoomRecording where
  account_id : JVal
  files : List RecordingFiles
  id : JVal
  password : JVal
  size : JVal
  start_time : JVal
  topic : JVal
  user : JVal

/-- Loop of ZoomRecording.__init__ over meeting_json.get("recording_files", []),
src/utils/zoom.py lines 144-149: each element must be a dict for RecordingFiles to
read it (its get calls raise AttributeError otherwise); iterating a non-list value in
place of the recording_files array raises TypeError for the JSON values that are not
iterable. -/
def buildRecordingFiles : JVal → Except PyErr (List RecordingFiles)
  | .arr xs => go xs
  | _ => .error .typeError
where
  go : List JVal → Except PyErr (List RecordingFiles)
    | [] => .ok []
    | x :: rest => do
      match x with
      | .obj fs =>
        let f ← RecordingFiles.init fs
        let tail ← go rest
        .ok (f :: tail)
      | _ => .error .attributeError

/-- ZoomRecording.__init__, src/utils/zoom.py lines 134-145, called with both of its
required arguments. Every field is read from meeting_json with dict.get. -/
def ZoomRecording.init (meeting_json user : JVal) : Except PyErr ZoomRecording := do
  let account_id ← meeting_json.pyGet "account_id" JVal.null
  let id ← meeting_json.pyGet "uuid" JVal.null
  let password ← meeting_json.pyGet "recording_play_passcode" JVal.null
  let size ← meeting_json.pyGet "total_size" JVal.null
  let start_time ← meeting_json.pyGet "start_time" JVal.null
  let topic ← meeting_json.pyGet "topic" JVal.null
  let rfs ← meeting_json.pyGet "recording_files" (JVal.arr [])
  let files ← buildRecordingFiles rfs
  .ok {
    account_id := account_id, files := files, id := id, password := password,
    size := size, start_time := start_time, topic := topic, user := user }

/-- Calling the ZoomRecording class with a list of positional arguments, following
Python call semantics: __init__ (src/utils/zoom.py line 134) declares exactly two
required parameters besides self (meeting_json and user), so a call with any other
number of positional arguments raises TypeError before the body runs. -/
def callZoomRecording : List JVal → Except PyErr ZoomRecording
  | [meeting_json, user] => ZoomRecording.init meeting_json user
  | _ => .error .typeError

/-- No-recordings fallback of main, src/zoom-recording-cloud-backup.py lines 426-446
(the ledger file always exists at this point because lines 422-424 create it when
absent). When the recordings list is empty: if the loaded ledger data is empty, main
returns 1 (inr); otherwise the source loop for meeting in data iterates the KEYS of
the ledger dict and executes recordings.append(ZoomRecording(meeting)), calling
ZoomRecording with a single positional argument. The result is the recordings list
main continues with (inl), main's early return value (inr), or the Python exception
that propagates out of main (error). -/
def mainNoRecordingsFallback (recordings : List ZoomRecording) (ledgerData : Ledger) :
    Except PyErr (List ZoomRecording ⊕ Nat) :=
  if recordings.isEmpty then
    if ledgerData.length = 0 then
      .ok (.inr 1)
    else do
      let reconstructed ← ledgerData.mapM (fun kv => callZoomRecording [JVal.str kv.1])
      .ok (.inl (recordings ++ reconstructed))
  else .ok (.inl recordings)

/-- Process exit code produced by line 544 of src/zoom-recording-cloud-backup.py,
asyncio.run(main()): the value main returns is discarded, so a run in which main
returns normally (whatever the returned value) exits with code 0, and a run in which
an exception propagates out of main exits with the interpreter's unhandled-exception
code 1. -/
def processExitCode (mainOutcome : Except PyErr Nat) : Nat :=
  match mainOutcome with
  | .ok _ => 0
  | .error _ => 1

/-- Exit code of a run that reaches the no-recordings fallback with the given ledger
data and then (if it continues) completes normally: main's own return value, even the
early return 1, is discarded by asyncio.run. -/
def runNoRecordingsExitCode (ledgerData : Ledger) : Nat :=
  processExitCode
    ((mainNoRecordingsFallback [] ledgerData).map
      (fun r => match r with | .inl _ => 0 | .inr c => c))

/-! Filename and folder derivation, src/zoom-recording-cloud-backup.py lines 185-204,
under the default configuration: timezone UTC, filename template
meeting_time, topic, rec_type and recording_id joined with a dash-spaced separator and
a dot before file_extension (line 115-116 of the source), and folder template topic
then meeting_time (line 117). -/

/-- Characters matched by the invalid_chars_pattern regex at line 191 of
src/zoom-recording-cloud-backup.py: the nine listed punctuation characters plus the
control range below 0x20. -/
def isInvalidFileChar (c : Char) : Bool :=
  c == '<' || c == '>' || c == ':' || c == '\"' || c == '/' || c == '\\' ||
    c == '|' || c == '?' || c == '*' || decide (c.toNat < 32)

/-- Python str.lower() on a str, embedded character-wise (ASCII). -/
def pyLower (s : String) : String :=
  String.mk (s.data.map Char.toLower)

/-- Python str.title(), embedded for ASCII: the first character of every maximal
alphabetic run is upper-cased and the rest of the run lower-cased; other characters
are kept and end the current run. -/
def pyTitleGo : Bool → List Char → List Char
  | _, [] => []
  | prevCased, c :: rest =>
    if c.isAlpha then
      (if prevCased then c.toLower else c.toUpper) :: pyTitleGo true rest
    else
      c :: pyTitleGo false rest

/-- Python str.title() over a whole string. -/
def pyTitle (s : String) : String :=
  String.mk (pyTitleGo false s.data)

/-- Topic cleanup of format_filename, lines 191-193 of the source: every character
matching the invalid pattern is removed, then spaces are replaced by underscores. -/
def sanitizeTopic (topic : String) : String :=
  String.mk
    (((topic.data.filter (fun c => !(isInvalidFileChar c))).map
      (fun c => if c == ' ' then '_' else c)))

/-- The label conversion for rec_type at line 194 of the source: underscores become
spaces, then str.title() is applied. -/
def recTypeLabel (recording_type : String) : String :=
  pyTitle (String.mk (recording_type.data.map (fun c => if c == '_' then ' ' else c)))

/-- The meeting_time component, lines 195-200 of the source, for the default UTC
timezone configuration: parser.parse of an ISO-8601 UTC timestamp of the shape
YYYY-MM-DDTHH:MM:SSZ followed by strftime of the year, month and day fields reads the
corresponding digit groups of the string, joined with dots. -/
def meetingTimeOf (start_time : String) : String :=
  String.mk
    ((start_time.data.take 4) ++ ('.' :: ((start_time.data.drop 5).take 2)) ++
      ('.' :: ((start_time.data.drop 8).take 2)))

/-- The function format_filename, src/zoom-recording-cloud-backup.py lines 185-204,
under the default templates of lines 115-117: returns the pair of the filename and
the folder name. -/
def format_filename (topic start_time file_ext recording_type recording_id : String) :
    String × String :=
  let file_extension := pyLower file_ext
  let topicS := sanitizeTopic topic
  let rec_type := recTypeLabel recording_type
  let meeting_time := meetingTimeOf start_time
  (meeting_time ++ " - " ++ topicS ++ " - " ++ rec_type ++ " - " ++ recording_id ++
      "." ++ file_extension,
    topicS ++ " - " ++ meeting_time)

/-! On-disk write of the ledger, src/utils/file_io.py lines 34-35: the file is opened
with mode w, which truncates it immediately, and json.dump then writes the serialized
document incrementally. -/

mutual

/-- Serialization of a JSON value as json.dump writes it (string escaping elided:
the embedded documents contain no quotes or control characters inside strings). -/
def serializeJVal : JVal → String
  | .null => "null"
  | .bool b => cond b "true" "false"
  | .num n => toString n
  | .str s => "\"" ++ s ++ "\""
  | .arr xs => "[" ++ serializeJValList xs ++ "]"
  | .obj fs => "\x7b" ++ serializeJValFields fs ++ "\x7d"

/-- Comma-separated serialization of a list of JSON values. -/
def serializeJValList : List JVal → String
  | [] => ""
  | [x] => serializeJVal x
  | x :: y :: rest => serializeJVal x ++ ", " ++ serializeJValList (y :: rest)

/-- Comma-separated serialization of the bindings of a JSON object. -/
def serializeJValFields : List (String × JVal) → String
  | [] => ""
  | [kv] => "\"" ++ kv.1 ++ "\": " ++ serializeJVal kv.2
  | kv :: kw :: rest =>
    "\"" ++ kv.1 ++ "\": " ++ serializeJVal kv.2 ++ ", " ++
      serializeJValFields (kw :: rest)

end

/-- Serialization of a whole ledger document (a JSON object of objects). -/
def serializeLedger (d : Ledger) : String :=
  serializeJVal (JVal.obj (d.map (fun kv => (kv.1, JVal.obj kv.2))))

/-- Outcome of the json.dump call at line 35 of src/utils/file_io.py: either the dump
completes, or it fails after having written the first k characters of the serialized
document (for example on a full disk). -/
inductive WriteOutcome where
  | success : WriteOutcome
  | failAfter : Nat → WriteOutcome
deriving DecidableEq

/-- Contents of the ledger file after the write-back of update_meeting_json_file,
src/utils/file_io.py lines 34-35, given the contents the file had before the call:
open(file_path, "w") truncates the file to length zero before json.dump starts, so
the prior contents never survive; a dump that fails after k characters leaves exactly
those k characters on disk. -/
def writeLedgerFile (_priorContent : String) (data : Ledger) (outcome : WriteOutcome) :
    String :=
  match outcome with
  | .success => serializeLedger data
  | .failAfter k => (serializeLedger data).take k

/-- Attempt outcomes used as a concrete input for the listing claims: the window
starting at day 0 responds at once with one recording, every attempt of the window
starting at day 30 times out, and later windows respond with another recording. -/
def attemptsEx : Nat × Nat → Nat → AttemptOutcome :=
  fun w _ =>
    if w.1 = 0 then .ok (some ["r1"])
    else if w.1 = 30 then .connectTimeout
    else .ok (some ["r2"])

/-! ## Theorems -/

/-- C2: dry run is NOT free of side effects for every status. For a file in status
"pending" the dry-run branch only prints (the try at main lines 482-499 has no else
clause), so the state and the file are returned unchanged, for every download and
upload outcome; but for a file in status "downloaded" the try/except/else at
src/zoom-recording-cloud-backup.py lines 507-526 runs its else suite after the
dry-run print, because the try suite raised no exception: under dry_run=true the file
is marked "uploaded", the success counter and the byte total are incremented, the
ledger is merge-written with the new status and the staged local file is removed. -/
theorem dry_run_downloaded_file_mutates_state (dl : DownloadOutcome)
    (fileOpens : Bool) (sessionResult chunkResult : APIOutcome)
    (recordingId : String) (recordingSize : Int) (st : RunState)
    (file pfile : RecordingFiles) (h : file.status = JVal.str "downloaded")
    (hp : pfile.status = JVal.str "pending") :
    ((processFile true dl fileOpens sessionResult chunkResult recordingId
        recordingSize st file).2.1.status = JVal.str "uploaded") ∧
    ((processFile true dl fileOpens sessionResult chunkResult recordingId
        recordingSize st file).1.completed_recordings
      = st.completed_recordings + 1) ∧
    ((processFile true dl fileOpens sessionResult chunkResult recordingId
        recordingSize st file).1.total_recording_size
      = st.total_recording_size + recordingSize) ∧
    ((processFile true dl fileOpens sessionResult chunkResult recordingId
        recordingSize st file).1.ledger
      = update_meeting_json_file st.ledger recordingId
          (RecordingFiles.to_json { file with status := JVal.str "uploaded" })) ∧
    ((processFile true dl fileOpens sessionResult chunkResult recordingId
        recordingSize st file).1.localFileExists = false) ∧
    ((processFile true dl fileOpens sessionResult chunkResult recordingId
        recordingSize st pfile).1 = st ∧
      (processFile true dl fileOpens sessionResult chunkResult recordingId
        recordingSize st pfile).2.1 = pfile) := by
  have h1 : file.status.eqStr "pending" = false := by rw [h]; rfl
  have h2 : file.status.eqStr "downloaded" = true := by rw [h]; rfl
  have hp1 : pfile.status.eqStr "pending" = true := by rw [hp]; rfl
  have hp2 : pfile.status.eqStr "downloaded" = false := by rw [hp]; rfl
  refine ⟨?_, ?_, ?_, ?_, ?_, ?_, ?_⟩ <;>
    simp [processFile, h1, h2, hp1, hp2]

/-- Witness for the C2 theorem at a concrete downloaded file (with its staged local
file present) and a concrete pending file. -/
theorem dry_run_downloaded_file_mutates_state_witness :
    ((processFile true .succeeded true .ok .ok "m1" 7 ⟨0, 0, 0, [], true⟩
        ⟨JVal.null, "mp4", JVal.null, JVal.str "downloaded", JVal.null⟩).2.1.status
      = JVal.str "uploaded") ∧
    ((processFile true .succeeded true .ok .ok "m1" 7 ⟨0, 0, 0, [], true⟩
        ⟨JVal.null, "mp4", JVal.null, JVal.str "downloaded", JVal.null⟩).1.localFileExists
      = false) ∧
    ((processFile true .succeeded true .ok .ok "m1" 7 ⟨0, 0, 0, [], true⟩
        ⟨JVal.null, "mp4", JVal.null, JVal.str "pending", JVal.null⟩).1
      = ⟨0, 0, 0, [], true⟩) :=
  ⟨(dry_run_downloaded_file_mutates_state .succeeded true .ok .ok "m1" 7
      ⟨0, 0, 0, [], true⟩
      ⟨JVal.null, "mp4", JVal.null, JVal.str "downloaded", JVal.null⟩
      ⟨JVal.null, "mp4", JVal.null, JVal.str "pending", JVal.null⟩ rfl rfl).1,
   (dry_run_downloaded_file_mutates_state .succeeded true .ok .ok "m1" 7
      ⟨0, 0, 0, [], true⟩
      ⟨JVal.null, "mp4", JVal.null, JVal.str "downloaded", JVal.null⟩
      ⟨JVal.null, "mp4", JVal.null, JVal.str "pending", JVal.null⟩ rfl rfl).2.2.2.2.1,
   (dry_run_downloaded_file_mutates_state .succeeded true .ok .ok "m1" 7
      ⟨0, 0, 0, [], true⟩
      ⟨JVal.null, "mp4", JVal.null, JVal.str "downloaded", JVal.null⟩
      ⟨JVal.null, "mp4", JVal.null, JVal.str "pending", JVal.null⟩ rfl rfl).2.2.2.2.2.1⟩

/-- C1: a file already in status "downloaded" whose upload fails with an APIError on
the chunk transfer (dry_run false) is NOT recorded as failed: upload_large_file
catches the chunk APIError internally (src/utils/msgraph_utils.py lines 134-136) and
returns normally, so the caller's success branch (src/zoom-recording-cloud-backup.py
lines 521-526) marks the file "uploaded", increments the success counter, leaves the
failure counter unchanged, and deletes the staged local file. This contradicts the
claimed UploadError propagation, "uploadFailed" transition, failure count increment
and file retention. -/
theorem upload_chunk_error_swallowed_marks_uploaded (code : Nat) (dl : DownloadOutcome)
    (recordingId : String) (recordingSize : Int) (st : RunState)
    (file : RecordingFiles) (h : file.status = JVal.str "downloaded") :
    upload_large_file true .ok (.apiError code) = .ok () ∧
    ((processFile false dl true .ok (.apiError code) recordingId recordingSize st
        file).2.1.status = JVal.str "uploaded") ∧
    ((processFile false dl true .ok (.apiError code) recordingId recordingSize st
        file).1.failed_files = st.failed_files) ∧
    ((processFile false dl true .ok (.apiError code) recordingId recordingSize st
        file).1.completed_recordings = st.completed_recordings + 1) ∧
    ((processFile false dl true .ok (.apiError code) recordingId recordingSize st
        file).1.localFileExists = false) := by
  have h1 : file.status.eqStr "pending" = false := by rw [h]; rfl
  have h2 : file.status.eqStr "downloaded" = true := by rw [h]; rfl
  refine ⟨rfl, ?_, ?_, ?_, ?_⟩ <;> simp [processFile, h1, h2, upload_large_file]

/-- Witness for the C1 theorem at a concrete downloaded file. -/
theorem upload_chunk_error_swallowed_marks_uploaded_witness :
    let file : RecordingFiles :=
      ⟨JVal.null, "mp4", JVal.null, JVal.str "downloaded", JVal.null⟩
    let st : RunState := ⟨0, 0, 0, [], true⟩
    upload_large_file true .ok (.apiError 500) = .ok () ∧
    ((processFile false .succeeded true .ok (.apiError 500) "m1" 7 st
        file).2.1.status = JVal.str "uploaded") ∧
    ((processFile false .succeeded true .ok (.apiError 500) "m1" 7 st
        file).1.failed_files = 0) ∧
    ((processFile false .succeeded true .ok (.apiError 500) "m1" 7 st
        file).1.completed_recordings = 0 + 1) ∧
    ((processFile false .succeeded true .ok (.apiError 500) "m1" 7 st
        file).1.localFileExists = false) :=
  upload_chunk_error_swallowed_marks_uploaded 500 .succeeded "m1" 7
    ⟨0, 0, 0, [], true⟩ ⟨JVal.null, "mp4", JVal.null, JVal.str "downloaded", JVal.null⟩ rfl

/-- C5 counterexample: a pending file whose download fails with download_recording
catching the error internally and returning False (src/zoom-recording-cloud-backup.py
lines 274-280) keeps status "pending", gets no ledger write, and the failure counter
stays 0 rather than the claimed increment to 1. -/
theorem download_returned_false_counterexample :
    ((processFile false .returnedFalse true .ok .ok "m1" 0 ⟨0, 0, 0, [], false⟩
        ⟨JVal.null, "mp4", JVal.null, JVal.str "pending", JVal.null⟩).2.1.status
      = JVal.str "pending") ∧
    ((processFile false .returnedFalse true .ok .ok "m1" 0 ⟨0, 0, 0, [], false⟩
        ⟨JVal.null, "mp4", JVal.null, JVal.str "pending", JVal.null⟩).1.failed_files
      = 0) ∧
    ((processFile false .returnedFalse true .ok .ok "m1" 0 ⟨0, 0, 0, [], false⟩
        ⟨JVal.null, "mp4", JVal.null, JVal.str "pending", JVal.null⟩).1.failed_files
      ≠ 1) ∧
    ((processFile false .returnedFalse true .ok .ok "m1" 0 ⟨0, 0, 0, [], false⟩
        ⟨JVal.null, "mp4", JVal.null, JVal.str "pending", JVal.null⟩).1.ledger
      = []) :=
  ⟨rfl, rfl, by decide, rfl⟩

/-- C5 amended: a pending file whose download fails by an exception raised out of the
download call transitions to "download failed", the ledger entry of its meeting is
merge-updated with the new status and the failure counter increments by 1; but a
download failure that download_recording catches internally (it returns False) leaves
the file in status "pending" with no ledger write and no counter change. -/
theorem download_failure_amended (fileOpens : Bool)
    (sessionResult chunkResult : APIOutcome) (recordingId : String)
    (recordingSize : Int) (st : RunState) (file : RecordingFiles)
    (h : file.status = JVal.str "pending") :
    (((processFile false .raised fileOpens sessionResult chunkResult recordingId
          recordingSize st file).2.1.status = JVal.str "download failed") ∧
      ((processFile false .raised fileOpens sessionResult chunkResult recordingId
          recordingSize st file).1.failed_files = st.failed_files + 1) ∧
      ((processFile false .raised fileOpens sessionResult chunkResult recordingId
          recordingSize st file).1.ledger
        = update_meeting_json_file st.ledger recordingId
            (RecordingFiles.to_json { file with status := JVal.str "download failed" }))) ∧
    ((processFile false .returnedFalse fileOpens sessionResult chunkResult recordingId
        recordingSize st file).1 = st ∧
      (processFile false .returnedFalse fileOpens sessionResult chunkResult recordingId
        recordingSize st file).2.1 = file) := by
  have h1 : file.status.eqStr "pending" = true := by rw [h]; rfl
  have h2 : file.status.eqStr "downloaded" = false := by rw [h]; rfl
  refine ⟨⟨?_, ?_, ?_⟩, ?_, ?_⟩ <;> simp [processFile, h1, h2]

/-- Witness for the amended C5 theorem at a concrete pending file. -/
theorem download_failure_amended_witness :
    ((processFile false .raised true .ok .ok "m1" 0 ⟨0, 0, 0, [], false⟩
        ⟨JVal.null, "mp4", JVal.null, JVal.str "pending", JVal.null⟩).2.1.status
      = JVal.str "download failed") ∧
    ((processFile false .raised true .ok .ok "m1" 0 ⟨0, 0, 0, [], false⟩
        ⟨JVal.null, "mp4", JVal.null, JVal.str "pending", JVal.null⟩).1.failed_files
      = 0 + 1) :=
  ⟨(download_failure_amended true .ok .ok "m1" 0 ⟨0, 0, 0, [], false⟩
      ⟨JVal.null, "mp4", JVal.null, JVal.str "pending", JVal.null⟩ rfl).1.1,
   (download_failure_amended true .ok .ok "m1" 0 ⟨0, 0, 0, [], false⟩
      ⟨JVal.null, "mp4", JVal.null, JVal.str "pending", JVal.null⟩ rfl).1.2.1⟩

/-- C4: with zero recordings from the API, the run does not behave as claimed. With a
nonempty ledger the fallback loop calls ZoomRecording with a single positional
argument (the key string), raising TypeError instead of reconstructing and
continuing, and the unhandled exception makes the process exit 1; with an empty
ledger main returns 1, but asyncio.run discards main's return value, so the process
exits 0 rather than the claimed 1. -/
theorem ledger_fallback_crashes_and_exit_code_zero :
    mainNoRecordingsFallback [] [("m1", [("_status", JVal.str "uploaded")])]
        = .error .typeError ∧
    runNoRecordingsExitCode [("m1", [("_status", JVal.str "uploaded")])] = 1 ∧
    runNoRecordingsExitCode [] = 0 ∧
    mainNoRecordingsFallback [] [] = .ok (.inr 1) :=
  ⟨rfl, rfl, rfl, rfl⟩

/-- C10: constructing a RecordingFiles record succeeds exactly when the value of the
"file_extension" key (default None when absent) is a str, in which case the stored
extension is its lower-casing; for every other value, in particular the None default
of an absent key, construction raises AttributeError from the immediate .lower()
call at src/utils/zoom.py line 118. -/
theorem recording_file_requires_string_extension (file_json : List (String × JVal)) :
    (∀ s, jgetD file_json "file_extension" JVal.null = JVal.str s →
      RecordingFiles.init file_json =
        .ok { download_url := jgetD file_json "download_url" JVal.null,
              file_extension := pyLower s,
              id := jgetD file_json "id" JVal.null,
              status := jgetD file_json "_status" (JVal.str "pending"),
              type := jgetD file_json "recording_type" JVal.null }) ∧
    ((∀ s, jgetD file_json "file_extension" JVal.null ≠ JVal.str s) →
      RecordingFiles.init file_json = .error .attributeError) := by
  constructor
  · intro s hs
    simp [RecordingFiles.init, hs, JVal.lower, pyLower, Except.bind]
  · intro hns
    unfold RecordingFiles.init
    cases hv : jgetD file_json "file_extension" JVal.null with
    | str s => exact absurd hv (hns s)
    | null => rfl
    | bool b => rfl
    | num n => rfl
    | arr xs => rfl
    | obj fs => rfl

/-- Witness for the C10 theorem: a present string extension is lower-cased into the
record, the absent key raises AttributeError. -/
theorem recording_file_requires_string_extension_witness :
    RecordingFiles.init [("file_extension", JVal.str "MP4")]
        = .ok ⟨JVal.null, "mp4", JVal.null, JVal.str "pending", JVal.null⟩ ∧
    RecordingFiles.init [] = .error .attributeError :=
  ⟨(recording_file_requires_string_extension [("file_extension", JVal.str "MP4")]).1
      "MP4" rfl,
   (recording_file_requires_string_extension []).2 (fun _ h => by cases h)⟩

/-- Window loop helper: as soon as any window's fetch exhausts its retries, the loop
returns the empty list, whatever had been accumulated. -/
theorem listRecordingsGo_exhausted (attempts : Nat × Nat → Nat → AttemptOutcome)
    (ws : List (Nat × Nat)) (acc : List String)
    (h : ∃ w ∈ ws, fetchWithRetries (attempts w) 0 3 = none) :
    listRecordingsGo attempts ws acc = [] := by
  induction ws generalizing acc with
  | nil => rcases h with ⟨w, hw, _⟩; cases hw
  | cons w ws ih =>
    rcases h with ⟨v, hv, hfail⟩
    rcases List.mem_cons.1 hv with hv | hv
    · subst hv
      simp [listRecordingsGo, hfail]
    · cases hw : fetchWithRetries (attempts w) 0 3 with
      | none => simp [listRecordingsGo, hw]
      | some d =>
        cases d with
        | none => simpa [listRecordingsGo, hw] using ih acc ⟨v, hv, hfail⟩
        | some ms => simpa [listRecordingsGo, hw] using ih (acc ++ ms) ⟨v, hv, hfail⟩

/-- Window loop helper: when no window exhausts its retries, the loop returns the
accumulator followed by the meetings gathered from the windows. -/
theorem listRecordingsGo_all_reachable (attempts : Nat × Nat → Nat → AttemptOutcome)
    (ws : List (Nat × Nat)) (acc : List String)
    (h : ∀ w ∈ ws, fetchWithRetries (attempts w) 0 3 ≠ none) :
    listRecordingsGo attempts ws acc = acc ++ gatheredMeetings attempts ws := by
  induction ws generalizing acc with
  | nil => simp [listRecordingsGo, gatheredMeetings]
  | cons w ws ih =>
    cases hw : fetchWithRetries (attempts w) 0 3 with
    | none => exact absurd hw (h w (List.mem_cons_self w ws))
    | some d =>
      have hrest : ∀ v ∈ ws, fetchWithRetries (attempts v) 0 3 ≠ none :=
        fun v hv => h v (List.mem_cons_of_mem w hv)
      cases d with
      | none =>
        simp [listRecordingsGo, hw, ih acc hrest, gatheredMeetings, windowMeetings]
      | some ms =>
        simp [listRecordingsGo, hw, ih (acc ++ ms) hrest, gatheredMeetings,
          windowMeetings]

/-- C3 counterexample: with windows of days 0-30, 30-60 and 60-90, where the first
window yields recording r1, every retry of the second window times out and the third
window yields r2, list_recordings returns the empty list: the failing middle window
aborts the whole user's listing and even the already gathered r1 is discarded,
contrary to the claim that only the failed window is skipped and r1 and r2 are
returned. -/
theorem list_recordings_window_failure_counterexample :
    list_recordings 0 90 attemptsEx = [] ∧
    "r1" ∉ list_recordings 0 90 attemptsEx ∧
    gatheredMeetings attemptsEx (perDelta 0 90 30) = ["r1", "r2"] := by
  refine ⟨rfl, by decide, rfl⟩

/-- C3 amended: when every ≤30-day window's listing call answers within its 3
attempts, list_recordings returns the concatenation of the meetings of all windows;
but when any window exhausts its 3 retry attempts, the whole user's listing is
abandoned: list_recordings returns the empty list, discarding even the recordings
gathered from earlier reachable windows. -/
theorem list_recordings_amended (start endT : Nat)
    (attempts : Nat × Nat → Nat → AttemptOutcome) :
    ((∀ w ∈ perDelta start endT 30, fetchWithRetries (attempts w) 0 3 ≠ none) →
      list_recordings start endT attempts
        = gatheredMeetings attempts (perDelta start endT 30)) ∧
    ((∃ w ∈ perDelta start endT 30, fetchWithRetries (attempts w) 0 3 = none) →
      list_recordings start endT attempts = []) :=
  ⟨fun h => listRecordingsGo_all_reachable attempts (perDelta start endT 30) [] h,
   fun h => listRecordingsGo_exhausted attempts (perDelta start endT 30) [] h⟩

/-- Witness for the amended C3 theorem: a fully reachable two-window range
concatenates the windows' meetings, and a range whose first window always times out
yields the empty list. -/
theorem list_recordings_amended_witness :
    list_recordings 0 60 (fun _ _ => .ok (some ["m"]))
        = gatheredMeetings (fun _ _ => .ok (some ["m"])) (perDelta 0 60 30) ∧
    list_recordings 0 60 (fun _ _ => .connectTimeout) = [] :=
  ⟨(list_recordings_amended 0 60 (fun _ _ => .ok (some ["m"]))).1 (by decide),
   (list_recordings_amended 0 60 (fun _ _ => .connectTimeout)).2 ⟨(0, 30), by decide, rfl⟩⟩

/-- C6 counterexample: merging the status "uploaded" into a one-entry ledger whose
dump fails after 2 characters leaves the file holding a 2-character torso that is
neither the prior contents nor the merged document: a partial, truncated ledger IS
observable, contrary to the claimed atomicity. -/
theorem ledger_write_truncation_counterexample :
    writeLedgerFile (serializeLedger [("m1", [("_status", JVal.str "downloaded")])])
        (update_meeting_json_file [("m1", [("_status", JVal.str "downloaded")])] "m1"
          [("_status", JVal.str "uploaded")]) (.failAfter 2)
      ≠ serializeLedger [("m1", [("_status", JVal.str "downloaded")])] ∧
    writeLedgerFile (serializeLedger [("m1", [("_status", JVal.str "downloaded")])])
        (update_meeting_json_file [("m1", [("_status", JVal.str "downloaded")])] "m1"
          [("_status", JVal.str "uploaded")]) (.failAfter 2)
      ≠ serializeLedger
          (update_meeting_json_file [("m1", [("_status", JVal.str "downloaded")])] "m1"
            [("_status", JVal.str "uploaded")]) := by
  constructor <;> decide

/-- C6 amended: every mergeUpdate call rewrites the whole ledger file, but not
atomically: on success the file holds exactly the serialization of the merged
mapping, while a write that fails after k characters leaves the first k characters of
the NEW serialization on disk - in particular a write that fails immediately leaves
an empty file, not the prior contents, because open(path, "w") truncates the file
before json.dump starts. -/
theorem ledger_write_amended (prior : String) (data : Ledger) (mid : String)
    (fields : Entry) (hp : prior ≠ "") :
    writeLedgerFile prior (update_meeting_json_file data mid fields) .success
        = serializeLedger (update_meeting_json_file data mid fields) ∧
    (∀ k, writeLedgerFile prior (update_meeting_json_file data mid fields)
        (.failAfter k)
      = (serializeLedger (update_meeting_json_file data mid fields)).take k) ∧
    writeLedgerFile prior (update_meeting_json_file data mid fields) (.failAfter 0)
        ≠ prior := by
  refine ⟨rfl, fun _ => rfl, ?_⟩
  have h0 : writeLedgerFile prior (update_meeting_json_file data mid fields)
      (.failAfter 0) = "" := rfl
  rw [h0]
  exact fun h => hp h.symm

/-- Witness for the amended C6 theorem at a concrete prior file and merge. -/
theorem ledger_write_amended_witness :
    ("x" : String) ≠ "" ∧
    writeLedgerFile "x" (update_meeting_json_file [] "m1" []) (.failAfter 0) ≠ "x" :=
  ⟨by decide, (ledger_write_amended "x" [] "m1" [] (by decide)).2.2⟩

/-- Reading the first binding of a key in a nonempty field list. -/
theorem entryLookup_cons (hd : String × JVal) (tl : Entry) (k : String) :
    entryLookup (hd :: tl) k
      = if hd.1 == k then some hd.2 else entryLookup tl k := by
  simp only [entryLookup, List.find?_cons]
  cases h : hd.1 == k <;> simp [h]

/-- Reading a key after a single dict assignment. -/
theorem entryLookup_dictSet (e : Entry) (a k : String) (b : JVal) :
    entryLookup (dictSet e a b) k = if k = a then some b else entryLookup e k := by
  induction e with
  | nil =>
    show entryLookup [(a, b)] k = if k = a then some b else entryLookup [] k
    rw [entryLookup_cons]
    by_cases h : k = a
    · simp [h]
    · have ha : (a == k) = false := by
        simp only [beq_eq_false_iff_ne, ne_eq]
        exact fun hk => h hk.symm
      simp [ha, h, entryLookup]
  | cons hd tl ih =>
    obtain ⟨c, v⟩ := hd
    by_cases hhd : c = a
    · have hstep : dictSet ((c, v) :: tl) a b = (a, b) :: tl := by
        simp [dictSet, hhd]
      rw [hstep, entryLookup_cons, entryLookup_cons]
      by_cases h : k = a
      · simp [h]
      · have h1 : (a == k) = false := by
          simp only [beq_eq_false_iff_ne, ne_eq]
          exact fun hk => h hk.symm
        have h2 : (c == k) = false := by rw [hhd]; exact h1
        simp [h1, h2, h]
    · have hstep : dictSet ((c, v) :: tl) a b = (c, v) :: dictSet tl a b := by
        simp [dictSet, hhd]
      rw [hstep, entryLookup_cons, ih, entryLookup_cons]
      by_cases hk : c = k
      · have hka : ¬(k = a) := fun hh => hhd (hk.trans hh)
        simp [hk, hka]
      · have hb : (c == k) = false := beq_eq_false_iff_ne.2 hk
        simp [hb]

/-- Reading a key after dict.update: the last assignment of the update wins, and a
key the update never assigns keeps its prior value. -/
theorem entryLookup_dictUpdate (fields : Entry) (e : Entry) (k : String) :
    entryLookup (dictUpdate e fields) k
      = match lastVal fields k with
        | some v => some v
        | none => entryLookup e k := by
  induction fields generalizing e with
  | nil => simp [dictUpdate, lastVal]
  | cons hd tl ih =>
    obtain ⟨a, b⟩ := hd
    have hstep : dictUpdate e ((a, b) :: tl) = dictUpdate (dictSet e a b) tl := rfl
    have hcons : lastVal ((a, b) :: tl) k
        = (lastVal tl k).elim (if a == k then some b else none) some := rfl
    rw [hstep, ih, hcons]
    cases htl : lastVal tl k with
    | some v => simp [Option.elim]
    | none =>
      simp only [Option.elim]
      rw [entryLookup_dictSet]
      by_cases h : k = a
      · have hb : (a == k) = true := by simp [h]
        simp [h, hb]
      · have hb : (a == k) = false := by
          simp only [beq_eq_false_iff_ne, ne_eq]
          exact fun hk => h hk.symm
        simp [h, hb]

/-- A key absent from a field list has no last assignment. -/
theorem lastVal_eq_none_of_not_mem (fields : Entry) (k : String)
    (h : k ∉ fields.map Prod.fst) :
    lastVal fields k = none := by
  induction fields with
  | nil => rfl
  | cons hd tl ih =>
    obtain ⟨a, b⟩ := hd
    simp only [List.map_cons, List.mem_cons] at h
    push_neg at h
    show (lastVal tl k).elim (if a == k then some b else none) some = none
    have hb : (a == k) = false := by
      simp only [beq_eq_false_iff_ne, ne_eq]
      exact fun hk => h.1 hk.symm
    simp [ih h.2, Option.elim, hb]

/-- On a dict (no duplicate keys) the first and the last binding of a key agree. -/
theorem lastVal_eq_entryLookup (fields : Entry) (k : String)
    (h : (fields.map Prod.fst).Nodup) :
    lastVal fields k = entryLookup fields k := by
  induction fields with
  | nil => rfl
  | cons hd tl ih =>
    obtain ⟨a, b⟩ := hd
    simp only [List.map_cons, List.nodup_cons] at h
    rw [entryLookup_cons]
    show (lastVal tl k).elim (if a == k then some b else none) some = _
    by_cases hk : a = k
    · have hb : (a == k) = true := by simp [hk]
      have hnone : lastVal tl k = none :=
        lastVal_eq_none_of_not_mem tl k (by rw [← hk]; exact h.1)
      simp [hnone, Option.elim, hb]
    · have hb : (a == k) = false := beq_eq_false_iff_ne.2 hk
      rw [ih h.2]
      cases he : entryLookup tl k <;> simp [hb, he, Option.elim]

/-- Reading the first entry of a key in a nonempty ledger. -/
theorem getEntry_cons (hd : String × Entry) (tl : Ledger) (mid : String) :
    getEntry (hd :: tl) mid = if hd.1 == mid then hd.2 else getEntry tl mid := by
  simp only [getEntry, List.find?_cons]
  cases h : hd.1 == mid <;> simp [h]

/-- A meeting id is a key of the merged ledger produced by update_meeting_json_file. -/
theorem update_meeting_mem (data : Ledger) (mid : String) (fields : Entry) :
    ((update_meeting_json_file data mid fields).find?
      (fun kv => kv.1 == mid)).isSome := by
  unfold update_meeting_json_file
  by_cases hp : (data.find? (fun kv => kv.1 == mid)).isSome
  · simp only [hp, if_true]
    rw [List.find?_isSome] at hp ⊢
    rcases hp with ⟨kv, hmem, hkv⟩
    refine ⟨(kv.1, dictUpdate kv.2 fields), List.mem_map.2 ⟨kv, hmem, ?_⟩, hkv⟩
    simp [hkv]
  · simp only [hp, if_false]
    rw [List.find?_isSome]
    exact ⟨(mid, fields), List.mem_append_right _ (List.mem_cons_self _ _), by simp⟩

/-- Entry of a meeting id after the in-place merge map over a ledger containing it. -/
theorem getEntry_map_merge (data : Ledger) (mid : String) (fields : Entry)
    (hp : (data.find? (fun kv => kv.1 == mid)).isSome) :
    getEntry (data.map (fun kv =>
        if kv.1 == mid then (kv.1, dictUpdate kv.2 fields) else kv)) mid
      = dictUpdate (getEntry data mid) fields := by
  induction data with
  | nil => simp at hp
  | cons hd tl ih =>
    rw [List.map_cons]
    by_cases hh : hd.1 = mid
    · have hb : (hd.1 == mid) = true := by simp [hh]
      rw [getEntry_cons, getEntry_cons]
      simp [hb]
    · have hb : (hd.1 == mid) = false := beq_eq_false_iff_ne.2 hh
      have hp' : (tl.find? (fun kv => kv.1 == mid)).isSome := by
        rw [List.find?_cons] at hp
        simpa [hb] using hp
      rw [getEntry_cons, getEntry_cons]
      simp only [hb, Bool.false_eq_true, if_false]
      exact ih hp'

/-- Entry of a meeting id after appending it to a ledger lacking it. -/
theorem getEntry_append_absent (data : Ledger) (mid : String) (fields : Entry)
    (hp : (data.find? (fun kv => kv.1 == mid)).isSome = false) :
    getEntry (data ++ [(mid, fields)]) mid = fields := by
  induction data with
  | nil => simp [getEntry_cons]
  | cons hd tl ih =>
    have hb : (hd.1 == mid) = false := by
      cases h : hd.1 == mid
      · rfl
      · exfalso
        rw [List.find?_cons] at hp
        simp [h] at hp
    have hp' : (tl.find? (fun kv => kv.1 == mid)).isSome = false := by
      rw [List.find?_cons] at hp
      simpa [hb] using hp
    rw [List.cons_append, getEntry_cons]
    simp only [hb, Bool.false_eq_true, if_false]
    exact ih hp'

/-- Entry stored for a meeting id after a merge into a ledger that contains it. -/
theorem getEntry_update_of_present (data : Ledger) (mid : String) (fields : Entry)
    (hp : (data.find? (fun kv => kv.1 == mid)).isSome) :
    getEntry (update_meeting_json_file data mid fields) mid
      = dictUpdate (getEntry data mid) fields := by
  unfold update_meeting_json_file
  simp only [hp, if_true]
  exact getEntry_map_merge data mid fields hp

/-- Entry stored for a meeting id after inserting it into a ledger lacking it. -/
theorem getEntry_update_of_absent (data : Ledger) (mid : String) (fields : Entry)
    (hp : (data.find? (fun kv => kv.1 == mid)).isSome = false) :
    getEntry (update_meeting_json_file data mid fields) mid = fields := by
  unfold update_meeting_json_file
  simp only [hp, Bool.false_eq_true, if_false]
  exact getEntry_append_absent data mid fields hp

/-- C9: merge-update is idempotent on the stored entry: applying the same
(meetingId, fields) update twice yields, field for field, the same entry as applying
it once; moreover one application merges by field-wise overwrite into an existing
entry when the meeting id is present and inserts the fields as the new entry
otherwise. The fields dict, coming from a Python dict, has no duplicate keys. -/
theorem merge_update_idempotent (data : Ledger) (mid : String) (fields : Entry)
    (hf : (fields.map Prod.fst).Nodup) :
    (∀ k, entryLookup
        (getEntry (update_meeting_json_file
          (update_meeting_json_file data mid fields) mid fields) mid) k
      = entryLookup (getEntry (update_meeting_json_file data mid fields) mid) k) ∧
    ((data.find? (fun kv => kv.1 == mid)).isSome →
      getEntry (update_meeting_json_file data mid fields) mid
        = dictUpdate (getEntry data mid) fields) ∧
    ((data.find? (fun kv => kv.1 == mid)).isSome = false →
      getEntry (update_meeting_json_file data mid fields) mid = fields) := by
  refine ⟨?_, getEntry_update_of_present data mid fields,
    getEntry_update_of_absent data mid fields⟩
  intro k
  have hmem := update_meeting_mem data mid fields
  rw [getEntry_update_of_present (update_meeting_json_file data mid fields) mid fields
    hmem]
  rw [entryLookup_dictUpdate]
  by_cases hp : (data.find? (fun kv => kv.1 == mid)).isSome
  · rw [getEntry_update_of_present data mid fields hp, entryLookup_dictUpdate]
    cases h : lastVal fields k <;> simp [h]
  · rw [getEntry_update_of_absent data mid fields (by rwa [Bool.not_eq_true] at hp)]
    rw [lastVal_eq_entryLookup fields k hf]
    cases h : entryLookup fields k <;> simp [h]

/-- Witness for the C9 theorem at a concrete ledger, meeting id and field dict. -/
theorem merge_update_idempotent_witness :
    ([("_status", JVal.str "uploaded"), ("id", JVal.str "f1")].map
        (Prod.fst (α := String) (β := JVal))).Nodup ∧
    (entryLookup
        (getEntry (update_meeting_json_file
          (update_meeting_json_file [("m1", [("_status", JVal.str "downloaded")])]
            "m1" [("_status", JVal.str "uploaded"), ("id", JVal.str "f1")]) "m1"
          [("_status", JVal.str "uploaded"), ("id", JVal.str "f1")]) "m1") "_status"
      = entryLookup
          (getEntry (update_meeting_json_file
            [("m1", [("_status", JVal.str "downloaded")])] "m1"
            [("_status", JVal.str "uploaded"), ("id", JVal.str "f1")]) "m1") "_status") :=
  ⟨by decide,
   (merge_update_idempotent [("m1", [("_status", JVal.str "downloaded")])] "m1"
      [("_status", JVal.str "uploaded"), ("id", JVal.str "f1")] (by decide)).1 "_status"⟩

/-- Past the end of the range the window loop produces nothing. -/
theorem perDeltaGo_nil (endT delta fuel curr : Nat) (h : ¬curr < endT) :
    perDeltaGo endT delta fuel curr = [] := by
  cases fuel with
  | zero => rfl
  | succ n => simp [perDeltaGo, h]

/-- A produced window list starts, when nonempty, with a window opening at the
current position, and only while the position is inside the range. -/
theorem perDeltaGo_head (endT delta fuel curr : Nat) (w : Nat × Nat)
    (h : (perDeltaGo endT delta fuel curr).head? = some w) :
    w.1 = curr ∧ w.2 = min (curr + delta) endT ∧ curr < endT := by
  cases fuel with
  | zero => simp [perDeltaGo] at h
  | succ n =>
    by_cases hc : curr < endT
    · simp only [perDeltaGo, hc, if_true, List.head?_cons, Option.some.injEq] at h
      exact ⟨by rw [← h], by rw [← h], hc⟩
    · simp [perDeltaGo, hc] at h

/-- Every produced window sits inside the remaining range, is nonempty, and spans at
most delta. -/
theorem perDeltaGo_mem (endT delta fuel curr : Nat) (hd : 0 < delta) :
    ∀ w ∈ perDeltaGo endT delta fuel curr,
      curr ≤ w.1 ∧ w.1 < w.2 ∧ w.2 - w.1 ≤ delta ∧ w.2 ≤ endT := by
  induction fuel generalizing curr with
  | zero => intro w hw; simp [perDeltaGo] at hw
  | succ n ih =>
    intro w hw
    by_cases hc : curr < endT
    · simp only [perDeltaGo, hc, if_true, List.mem_cons] at hw
      rcases hw with hw | hw
      · subst hw
        refine ⟨Nat.le_refl _, ?_, ?_, Nat.min_le_right _ _⟩
        · exact lt_min (by omega) hc
        · have := Nat.min_le_left (curr + delta) endT
          omega
      · have := ih (curr + delta) w hw
        omega
    · simp [perDeltaGo, hc] at hw

/-- Consecutive produced windows are contiguous: each window closes where the next
one opens. -/
theorem perDeltaGo_chain (endT delta fuel curr : Nat) :
    List.Chain' (fun a b => a.2 = b.1) (perDeltaGo endT delta fuel curr) := by
  induction fuel generalizing curr with
  | zero => simp [perDeltaGo]
  | succ n ih =>
    by_cases hc : curr < endT
    · simp only [perDeltaGo, hc, if_true]
      refine List.chain'_cons'.2 ⟨?_, ih (curr + delta)⟩
      intro y hy
      have hh := perDeltaGo_head endT delta n (curr + delta) y hy
      have : min (curr + delta) endT = curr + delta := Nat.min_eq_left (by omega)
      simp [hh.1, this]
    · simp [perDeltaGo_nil endT delta _ curr hc]

/-- With positive delta and enough fuel, the produced list closes exactly at the end
of the range. -/
theorem perDeltaGo_last (endT delta fuel curr : Nat) (hd : 0 < delta)
    (hf : endT - curr ≤ fuel) (hc : curr < endT) :
    ∃ a, (perDeltaGo endT delta fuel curr).getLast? = some (a, endT) := by
  induction fuel generalizing curr with
  | zero => omega
  | succ n ih =>
    simp only [perDeltaGo, hc, if_true]
    by_cases hnext : curr + delta < endT
    · obtain ⟨a, ha⟩ := ih (curr + delta) (by omega) hnext
      cases htail : perDeltaGo endT delta n (curr + delta) with
      | nil => rw [htail] at ha; simp at ha
      | cons t0 trest =>
        rw [htail] at ha
        rw [List.getLast?_cons_cons]
        exact ⟨a, ha⟩
    · have hm : min (curr + delta) endT = endT := Nat.min_eq_right (by omega)
      rw [perDeltaGo_nil endT delta n (curr + delta) hnext, hm]
      exact ⟨curr, rfl⟩

/-- With positive delta and enough fuel, every instant of the range is covered by a
produced window. -/
theorem perDeltaGo_coverage (endT delta fuel curr : Nat) (hd : 0 < delta)
    (hf : endT - curr ≤ fuel) :
    ∀ t, curr ≤ t → t < endT →
      ∃ w ∈ perDeltaGo endT delta fuel curr, w.1 ≤ t ∧ t < w.2 := by
  induction fuel generalizing curr with
  | zero => intro t ht1 ht2; omega
  | succ n ih =>
    intro t ht1 ht2
    have hc : curr < endT := by omega
    simp only [perDeltaGo, hc, if_true]
    by_cases ht : t < min (curr + delta) endT
    · exact ⟨(curr, min (curr + delta) endT), List.mem_cons_self _ _, ht1, ht⟩
    · have hmin : curr + delta < endT := by
        rcases Nat.le_total endT (curr + delta) with h | h
        · rw [Nat.min_eq_right h] at ht; omega
        · rcases Nat.lt_or_ge (curr + delta) endT with h' | h'
          · exact h'
          · omega
      have hmv : min (curr + delta) endT = curr + delta := Nat.min_eq_left (by omega)
      rw [hmv] at ht
      obtain ⟨w, hw, hw1, hw2⟩ := ih (curr + delta) (by omega) t (by omega) ht2
      exact ⟨w, List.mem_cons_of_mem _ hw, hw1, hw2⟩

/-- C7: for start before endT and positive delta, per_delta produces a nonempty
window list whose first window opens at start, whose last window closes exactly at
endT, in which every window is nonempty, spans at most delta, and stays inside the
range, consecutive windows are contiguous and non-overlapping (each window's end is
the next window's start), and every instant of the half-open range is covered by some
window. -/
theorem per_delta_covers_range (start endT delta : Nat) (h1 : start < endT)
    (h2 : 0 < delta) :
    perDelta start endT delta ≠ [] ∧
    (perDelta start endT delta).head? = some (start, min (start + delta) endT) ∧
    (∃ a, (perDelta start endT delta).getLast? = some (a, endT)) ∧
    (∀ w ∈ perDelta start endT delta,
      start ≤ w.1 ∧ w.1 < w.2 ∧ w.2 - w.1 ≤ delta ∧ w.2 ≤ endT) ∧
    List.Chain' (fun a b => a.2 = b.1) (perDelta start endT delta) ∧
    (∀ t, start ≤ t → t < endT →
      ∃ w ∈ perDelta start endT delta, w.1 ≤ t ∧ t < w.2) := by
  have hfuel : endT - start ≤ endT - start := Nat.le_refl _
  refine ⟨?_, ?_, perDeltaGo_last endT delta _ start h2 hfuel h1,
    perDeltaGo_mem endT delta _ start h2, perDeltaGo_chain endT delta _ start,
    perDeltaGo_coverage endT delta _ start h2 hfuel⟩
  · unfold perDelta
    cases hfz : endT - start with
    | zero => omega
    | succ n => simp [perDeltaGo, h1]
  · unfold perDelta
    cases hfz : endT - start with
    | zero => omega
    | succ n => simp [perDeltaGo, h1]

/-- Witness for the C7 theorem on a 70-day range split into 30-day windows. -/
theorem per_delta_covers_range_witness :
    0 < 70 ∧ 0 < 30 ∧ perDelta 0 70 30 = [(0, 30), (30, 60), (60, 70)] ∧
    (∀ t, 0 ≤ t → t < 70 → ∃ w ∈ perDelta 0 70 30, w.1 ≤ t ∧ t < w.2) :=
  ⟨by decide, by decide, by decide,
   (per_delta_covers_range 0 70 30 (by decide) (by decide)).2.2.2.2.2⟩

/-- Upper-casing an ASCII character never produces an invalid filename character. -/
theorem isInvalidFileChar_toUpper (c : Char) (h : isInvalidFileChar c = false) :
    isInvalidFileChar c.toUpper = false := by
  simp only [Char.toUpper]
  split
  · next hcond =>
    obtain ⟨h1, h2⟩ := hcond
    set n := c.toNat with hn
    interval_cases n <;> decide
  · exact h

/-- Lower-casing an ASCII character never produces an invalid filename character. -/
theorem isInvalidFileChar_toLower (c : Char) (h : isInvalidFileChar c = false) :
    isInvalidFileChar c.toLower = false := by
  simp only [Char.toLower]
  split
  · next hcond =>
    obtain ⟨h1, h2⟩ := hcond
    set n := c.toNat with hn
    interval_cases n <;> decide
  · exact h

/-- The sanitized topic contains no invalid filename character, whatever the topic:
the regex substitution removes every invalid character and the underscore substituted
for spaces is itself valid. -/
theorem sanitizeTopic_valid (topic : String) :
    (sanitizeTopic topic).data.all (fun c => !(isInvalidFileChar c)) = true := by
  show (((topic.data.filter (fun c => !(isInvalidFileChar c))).map
      (fun c => if c == ' ' then '_' else c)).all (fun c => !(isInvalidFileChar c)))
    = true
  rw [List.all_eq_true]
  intro c hc
  rcases List.mem_map.1 hc with ⟨b, hb, rfl⟩
  have hvalid := (List.mem_filter.1 hb).2
  by_cases hsp : (b == ' ') = true
  · simp only [hsp, if_true]
    decide
  · simp only [hsp, if_false]
    simpa using hvalid

/-- An unfolding lemma: pyTitleGo on a cons splits by the alphabetic test. -/
theorem pyTitleGo_cons (b : Bool) (c : Char) (rest : List Char) :
    pyTitleGo b (c :: rest)
      = if c.isAlpha then
          (if b then c.toLower else c.toUpper) :: pyTitleGo true rest
        else c :: pyTitleGo false rest := rfl

/-- Python str.title never introduces an invalid filename character. -/
theorem pyTitleGo_valid (l : List Char) :
    ∀ b, l.all (fun c => !(isInvalidFileChar c)) = true →
      (pyTitleGo b l).all (fun c => !(isInvalidFileChar c)) = true := by
  induction l with
  | nil => intro b _; rfl
  | cons c rest ih =>
    intro b h
    rw [List.all_cons] at h
    obtain ⟨hc, hrest⟩ := Bool.and_eq_true_iff.1 h
    rw [pyTitleGo_cons]
    by_cases ha : c.isAlpha = true
    · rw [if_pos ha, List.all_cons, Bool.and_eq_true_iff]
      refine ⟨?_, ih true hrest⟩
      cases b
      · simpa using isInvalidFileChar_toUpper c (by simpa using hc)
      · simpa using isInvalidFileChar_toLower c (by simpa using hc)
    · rw [if_neg ha, List.all_cons, Bool.and_eq_true_iff]
      exact ⟨hc, ih false hrest⟩

/-- Lower-casing a whole string preserves validity of every character. -/
theorem pyLower_valid (s : String)
    (h : s.data.all (fun c => !(isInvalidFileChar c)) = true) :
    (pyLower s).data.all (fun c => !(isInvalidFileChar c)) = true := by
  show (s.data.map Char.toLower).all (fun c => !(isInvalidFileChar c)) = true
  rw [List.all_eq_true]
  intro c hc
  rcases List.mem_map.1 hc with ⟨b, hb, rfl⟩
  have := List.all_eq_true.1 h b hb
  simpa using isInvalidFileChar_toLower b (by simpa using this)

/-- The rec_type label contains no invalid character when the raw recording type
contains none. -/
theorem recTypeLabel_valid (recording_type : String)
    (h : recording_type.data.all (fun c => !(isInvalidFileChar c)) = true) :
    (recTypeLabel recording_type).data.all (fun c => !(isInvalidFileChar c)) = true := by
  show (pyTitleGo false (recording_type.data.map
      (fun c => if c == '_' then ' ' else c))).all _ = true
  apply pyTitleGo_valid
  rw [List.all_eq_true]
  intro c hc
  rcases List.mem_map.1 hc with ⟨b, hb, rfl⟩
  have hvalid := List.all_eq_true.1 h b hb
  by_cases hu : (b == '_') = true
  · simp only [hu, if_true]
    decide
  · simp only [hu, if_false]
    exact hvalid

/-- C8 counterexample: format_filename removes invalid characters only from the
topic; a recording type containing a question mark passes through str.title
unchanged, so the produced filename contains the invalid character. -/
theorem format_filename_invalid_char_counterexample :
    '?' ∈ (format_filename "Team Meeting" "2025-03-04T10:00:00Z" "MP4"
        "shared?screen" "rec1").1.data ∧
    isInvalidFileChar '?' = true ∧
    (format_filename "Team Meeting" "2025-03-04T10:00:00Z" "MP4" "shared?screen"
        "rec1").1 = "2025.03.04 - Team_Meeting - Shared?Screen - rec1.mp4" := by
  refine ⟨by decide, by decide, rfl⟩

/-- C8 amended: the derivation is pure and deterministic (equal inputs give equal
outputs), invalid filesystem characters are removed from the topic, and the filename
and folder contain no invalid character provided the derived meeting_time component
(the date digits extracted from the start time) and the file extension, recording
type and recording id inputs contain none (those components are substituted into the
templates unfiltered). -/
theorem format_filename_amended
    (topic start_time file_ext recording_type recording_id : String)
    (hst : (meetingTimeOf start_time).data.all (fun c => !(isInvalidFileChar c)) = true)
    (hfe : file_ext.data.all (fun c => !(isInvalidFileChar c)) = true)
    (hrt : recording_type.data.all (fun c => !(isInvalidFileChar c)) = true)
    (hrid : recording_id.data.all (fun c => !(isInvalidFileChar c)) = true) :
    ((format_filename topic start_time file_ext recording_type recording_id).1.data.all
        (fun c => !(isInvalidFileChar c)) = true) ∧
    ((format_filename topic start_time file_ext recording_type recording_id).2.data.all
        (fun c => !(isInvalidFileChar c)) = true) ∧
    (∀ t2 s2 f2 r2 i2, t2 = topic → s2 = start_time → f2 = file_ext →
      r2 = recording_type → i2 = recording_id →
      format_filename t2 s2 f2 r2 i2
        = format_filename topic start_time file_ext recording_type recording_id) := by
  have happ : ∀ s t : String,
      s.data.all (fun c => !(isInvalidFileChar c)) = true →
      t.data.all (fun c => !(isInvalidFileChar c)) = true →
      (s ++ t).data.all (fun c => !(isInvalidFileChar c)) = true := by
    intro s t hs ht
    rw [String.data_append, List.all_append, hs, ht]
    rfl
  have hsep : (" - " : String).data.all (fun c => !(isInvalidFileChar c)) = true := by
    decide
  have hdot : ("." : String).data.all (fun c => !(isInvalidFileChar c)) = true := by
    decide
  refine ⟨?_, ?_, ?_⟩
  · show ((meetingTimeOf start_time ++ " - " ++ sanitizeTopic topic ++ " - " ++
        recTypeLabel recording_type ++ " - " ++ recording_id ++ "." ++
        pyLower file_ext).data.all (fun c => !(isInvalidFileChar c)) = true)
    exact happ _ _
      (happ _ _
        (happ _ _
          (happ _ _
            (happ _ _
              (happ _ _
                (happ _ _ hst hsep)
                (sanitizeTopic_valid topic))
              hsep)
            (recTypeLabel_valid recording_type hrt))
          hsep)
        hrid)
      hdot |> fun h7 => happ _ _ h7 (pyLower_valid file_ext hfe)
  · show ((sanitizeTopic topic ++ " - " ++ meetingTimeOf start_time).data.all
        (fun c => !(isInvalidFileChar c)) = true)
    exact happ _ _ (happ _ _ (sanitizeTopic_valid topic) hsep)
      hst
  · intro t2 s2 f2 r2 i2 h1 h2 h3 h4 h5
    subst h1; subst h2; subst h3; subst h4; subst h5
    rfl

/-- Witness for the amended C8 theorem at a concrete recording. -/
theorem format_filename_amended_witness :
    ((meetingTimeOf "2025-03-04T10:00:00Z").data.all
        (fun c => !(isInvalidFileChar c)) = true) ∧
    ((format_filename "My Meeting: Q&A?" "2025-03-04T10:00:00Z" "MP4"
        "shared_screen_with_speaker_view" "abc123").1.data.all
        (fun c => !(isInvalidFileChar c)) = true) :=
  ⟨by decide,
   (format_filename_amended "My Meeting: Q&A?" "2025-03-04T10:00:00Z" "MP4"
      "shared_screen_with_speaker_view" "abc123" (by decide) (by decide) (by decide)
      (by decide)).1⟩

end ZoomBackup
